import Mathlib

/-!
Verification of the Beatport adapter (`beatport_api.py` / `interface.py`).

The development shallowly embeds the pure decision logic of the two source
files: chart-identifier routing, HTTP status dispatch, pagination and track
annotation, the quality-tier table, the track error-field computation, login
validation, URL parsing, debug-log sanitisation and cover-URL generation.
Strings are modelled as `String` or `List Char`; the Python regular
expressions used by the source are embedded as explicit scanning functions
whose backtracking order follows the regex engine (leftmost position first,
greedy/lazy quantifiers as noted at each definition).
-/

namespace Beatport

/-! ## Generic character-list utilities -/

/-- Maximal leading run of characters satisfying `p`, together with the
remainder.  This is the semantics of a greedy regex character-class `+`
quantifier when the following pattern element cannot match a character of the
class (so backtracking into the run can never succeed). -/
def takeRun (p : Char → Bool) : List Char → List Char × List Char
  | [] => ([], [])
  | c :: cs =>
    if p c then
      let (d, r) := takeRun p cs
      (c :: d, r)
    else ([], c :: cs)

/-- Maximal leading run of ASCII digits (regex `\d+`, greedy). -/
def takeDigits (cs : List Char) : List Char × List Char :=
  takeRun Char.isDigit cs

/-- Drop the literal `p` off the front of `cs`, or fail. -/
def stripLit : List Char → List Char → Option (List Char)
  | [], cs => some cs
  | _ :: _, [] => none
  | p :: ps, c :: cs => if c = p then stripLit ps cs else none

/-- Does `cs` start with `needle`? -/
def listStartsWith : List Char → List Char → Bool
  | [], _ => true
  | _ :: _, [] => false
  | p :: ps, c :: cs => p == c && listStartsWith ps cs

/-- Python's substring test `needle in hay`. -/
def containsSub (needle : List Char) : List Char → Bool
  | [] => listStartsWith needle []
  | c :: t => listStartsWith needle (c :: t) || containsSub needle t

/-- Consume one arbitrary character (regex `.` wildcard where the input
cannot contain a newline). -/
def anyChar : List Char → Option (List Char)
  | [] => none
  | _ :: rest => some rest

/-- Python `str.split()` (no argument): split on whitespace runs, dropping
empty pieces.  `cur` is the reversed chunk currently being read. -/
def pySplitAux : List Char → List Char → List (List Char)
  | [], cur => if cur = [] then [] else [cur.reverse]
  | c :: rest, cur =>
    if c.isWhitespace then
      if cur = [] then pySplitAux rest [] else cur.reverse :: pySplitAux rest []
    else pySplitAux rest (c :: cur)

/-- Python `str.split()` on a character list. -/
def pySplitWs (cs : List Char) : List (List Char) :=
  pySplitAux cs []

/-! ## `BeatportApi.get_chart_tracks` (beatport_api.py, lines 306-322) -/

/-- `re.match(r"genre-(\d+)-hype-(\d+)", chart_id)`: an *anchored-at-start*
(but not at-end) match returning the two captured digit groups.  Both `\d+`
groups are greedy; backtracking a group to a shorter run can never succeed
because the shortened run would leave a digit where the non-digit `-` of
`-hype-` (resp. nothing) is required, so taking the maximal runs is exact. -/
def genreHypeMatch (cs : List Char) : Option (List Char × List Char) :=
  match stripLit "genre-".toList cs with
  | none => none
  | some r1 =>
    let (d1, r2) := takeDigits r1
    if d1 = [] then none
    else
      match stripLit "-hype-".toList r2 with
      | none => none
      | some r3 =>
        let (d2, _) := takeDigits r3
        if d2 = [] then none else some (d1, d2)

/-- The endpoint string chosen by `BeatportApi.get_chart_tracks`. -/
def get_chart_tracks_endpoint (chart_id : String) : String :=
  match genreHypeMatch chart_id.toList with
  | some (g, t) =>
      "catalog/genres/" ++ String.mk g ++ "/hype/" ++ String.mk t ++ "/tracks"
  | none => "catalog/charts/" ++ chart_id ++ "/tracks"

/-! ## `BeatportApi._get` status dispatch (beatport_api.py, lines 257-277) -/

/-- Outcome of an authenticated GET: parsed body, or the exception raised
(`ValueError(r.text)` on 401, `ConnectionError(r.text)` otherwise). -/
inductive GetOutcome (α : Type) where
  | ok (body : α)
  | authRequired (detail : String)
  | connectionError (detail : String)
deriving DecidableEq

/-- `BeatportApi._get`, abstracted over the transport: the dispatch on the
HTTP status code (`401` first, then the `{200, 201, 202}` success set). -/
def get_dispatch {α : Type} (status : Nat) (text : String) (body : α) : GetOutcome α :=
  if status = 401 then .authRequired text
  else if ¬(status = 200 ∨ status = 201 ∨ status = 202) then .connectionError text
  else .ok body

/-! ## Quality mapping (interface.py, lines 40-47 and 260-287) -/

inductive QualityEnum where
  | MINIMUM | LOW | MEDIUM | HIGH | LOSSLESS | HIFI
deriving DecidableEq

inductive CodecEnum where
  | AAC | FLAC
deriving DecidableEq

/-- The `quality_parse` table of `ModuleInterface.__init__`. -/
def quality_parse : QualityEnum → String
  | .MINIMUM => "low"
  | .LOW => "low"
  | .MEDIUM => "medium"
  | .HIGH => "high"
  | .LOSSLESS => "flac"
  | .HIFI => "flac"

/-- The `bitrate` dict literal inside `get_track_info` (`none` models a
`KeyError` for a key outside the dict). -/
def bitrateTable (q : String) : Option Nat :=
  if q = "low" then some 128
  else if q = "medium" then some 128
  else if q = "high" then some 256
  else if q = "flac" then some 1411
  else none

/-- The three quality-dependent fields of the `TrackInfo` record built by
`get_track_info`. -/
structure QualityFields where
  bitrate : Option Nat
  bit_depth : Option Nat
  codec : CodecEnum
deriving DecidableEq

/-- Bitrate / bit-depth / codec assembly of `get_track_info`:
`bitrate[quality]`, `16 if quality == "flac" else None`, and
`AAC if quality_tier not in {HIFI, LOSSLESS} else FLAC`. -/
def get_track_info_quality (quality_tier : QualityEnum) : QualityFields :=
  let quality := quality_parse quality_tier
  { bitrate := bitrateTable quality
    bit_depth := if quality = "flac" then some 16 else none
    codec :=
      if ¬(quality_tier = .HIFI ∨ quality_tier = .LOSSLESS) then .AAC else .FLAC }

/-! ## Track error field (interface.py, lines 210-258) -/

/-- The slice of the track JSON that the error-field computation reads. -/
structure TrackAvail where
  name : String
  is_available_for_streaming : Bool
  preorder : Bool

/-- The substring matched against the caught `ConnectionError`. -/
def territorySub : List Char := "Territory Restricted.".toList

def regionLockedMsg (album_id : Nat) : String :=
  "Album " ++ Nat.repr album_id ++ " is region locked"

def notStreamableMsg (name : String) : String :=
  "Track \"" ++ name ++ "\" is not streamable!"

def notYetReleasedMsg (name : String) : String :=
  "Track \"" ++ name ++ "\" is not yet released!"

/-- The `error` value of the record built by `get_track_info`.
`fetchRelease` is the outcome of `self.session.get_release(album_id)`:
`.error e` is a raised `ConnectionError(e)` (the only exception type the
`try` block catches; per `_get` it carries the raw response text).  The
region-lock substring test runs first; the streamability and preorder
checks follow in source order and reassign `error` when they fire. -/
def get_track_info_error (fetchRelease : Except String Unit) (album_id : Nat)
    (track : TrackAvail) : Option String :=
  let error : Option String :=
    match fetchRelease with
    | .ok _ => none
    | .error e =>
      if containsSub territorySub e.toList then some (regionLockedMsg album_id)
      else none
  if track.is_available_for_streaming = false then some (notStreamableMsg track.name)
  else if track.preorder = true then some (notYetReleasedMsg track.name)
  else error

/-! ## Playlist/chart pagination (interface.py, lines 136-192) -/

structure PlaylistTrack where
  id : Nat
  length_ms : Nat
deriving DecidableEq

/-- One entry of a regular playlist's `results`: it wraps the track object
(`t.get('track')`). -/
structure PlaylistEntry where
  track : PlaylistTrack
deriving DecidableEq

/-- One page of a paged endpoint: the reported total `count` and this page's
`results`. -/
structure PageResponse (α : Type) where
  count : Nat
  results : List α

/-- A track as it sits in the aggregated list after the `enumerate` loop of
`get_playlist_info` mutated it: 1-based `track_number`, `total_tracks`. -/
structure AnnotatedTrack where
  track : PlaylistTrack
  track_number : Nat
  total_tracks : Nat

/-- Pages requested by `get_playlist_info` for a reported total of `total`
items: the initial call (default `page=1`) followed by the loop
`for page in range(2, (total_tracks - 1) // 100 + 2)`. -/
def playlistPagesRequested (total : Nat) : List Nat :=
  1 :: List.range' 2 ((total - 1) / 100)

/-- Chart branch of the aggregation loop: page results are used directly. -/
def collectChartTracks (fetch : Nat → PageResponse PlaylistTrack) : List PlaylistTrack :=
  (List.range' 2 (((fetch 1).count - 1) / 100)).foldl
    (fun acc page => acc ++ (fetch page).results) (fetch 1).results

/-- Playlist branch of the aggregation loop: each page entry is unwrapped
one level (`t.get('track')`). -/
def collectPlaylistTracks (fetch : Nat → PageResponse PlaylistEntry) : List PlaylistTrack :=
  (List.range' 2 (((fetch 1).count - 1) / 100)).foldl
    (fun acc page => acc ++ ((fetch page).results.map PlaylistEntry.track))
    (((fetch 1).results).map PlaylistEntry.track)

/-- The `for i, track in enumerate(playlist_tracks)` loop, which sets
`track['track_number'] = i + 1` and `track['total_tracks'] = total_tracks`;
`k` is the running index `i`. -/
def annotateTracksFrom (k : Nat) (total : Nat) : List PlaylistTrack → List AnnotatedTrack
  | [] => []
  | t :: ts => ⟨t, k + 1, total⟩ :: annotateTracksFrom (k + 1) total ts

def annotateTracks (tracks : List PlaylistTrack) (total : Nat) : List AnnotatedTrack :=
  annotateTracksFrom 0 total tracks

/-- The aggregated, annotated track list built by `get_playlist_info`
(the `total_tracks` annotation comes from page 1's `count`). -/
def get_playlist_info_tracks (is_chart : Bool)
    (fetchChart : Nat → PageResponse PlaylistTrack)
    (fetchPlaylist : Nat → PageResponse PlaylistEntry) : List AnnotatedTrack :=
  if is_chart then
    annotateTracks (collectChartTracks fetchChart) (fetchChart 1).count
  else
    annotateTracks (collectPlaylistTracks fetchPlaylist) (fetchPlaylist 1).count

/-- Concrete 250-item chart server used by the C2 witness. -/
def samplePlaylistTrack (i : Nat) : PlaylistTrack :=
  { id := i, length_ms := 60000 }

def sampleChartFetch (page : Nat) : PageResponse PlaylistTrack :=
  if page = 1 then { count := 250, results := (List.range' 0 100).map samplePlaylistTrack }
  else if page = 2 then { count := 250, results := (List.range' 100 100).map samplePlaylistTrack }
  else { count := 250, results := (List.range' 200 50).map samplePlaylistTrack }

def samplePlaylistFetch (page : Nat) : PageResponse PlaylistEntry :=
  { count := 250, results := (sampleChartFetch page).results.map PlaylistEntry.mk }

/-! ## Login validation (interface.py, lines 56-89) -/

/-- The fields of the `auth/o/introspect` response that `login` reads
(each via `.get`, so any of them may be absent). -/
structure IntrospectResponse where
  scope : Option String
  subscription : Option String
  feature : List String

def required_features : List String :=
  ["feature:fulltrackplayback", "feature:cdnfulfillment", "feature:cdnfulfillment-link"]

inductive LoginOutcome where
  | ok
  | err (msg : String)
deriving DecidableEq

/-- The final feature check of `login`: error if any required feature is
missing from the account. -/
def missingBranch (missing : List String) : LoginOutcome :=
  if missing ≠ [] then
    .err ("Account missing required features: " ++ String.intercalate ", " missing)
  else .ok

/-- `'user:dj' in subscription.get('scope', '').split()`: Python `split()`
is whitespace splitting with empty pieces dropped. -/
def hasDjScope (sub : IntrospectResponse) : Bool :=
  decide ("user:dj".toList ∈ pySplitWs (sub.scope.getD "").toList)

/-- `[f for f in required_features if f not in features]` (keeps the order
of `required_features`). -/
def missing_features (sub : IntrospectResponse) : List String :=
  required_features.filter (fun f => decide (f ∉ sub.feature))

/-- `ModuleInterface.login` after the `auth` call: the truthiness test on
`error_description`, then the validation chain over the introspection
response, in source order (scope membership, subscription truthiness,
subscription tier, missing features). -/
def login_validate (error_description : Option String) (sub : IntrospectResponse) :
    LoginOutcome :=
  if (error_description.getD "") ≠ "" then .err (error_description.getD "")
  else if hasDjScope sub = false then
    .err "Account does not have DJ/streaming permissions"
  else if (sub.subscription.getD "") = "" then .err "No active subscription found"
  else if ¬((sub.subscription.getD "") = "bp_link"
      ∨ (sub.subscription.getD "") = "bp_link_pro") then
    .err "Account does not have a LINK or LINK PRO subscription"
  else
    missingBranch (missing_features sub)

/-- Introspection responses used by the C9 witness. -/
def sampleIntrospectGood : IntrospectResponse :=
  { scope := some "user:dj user:library"
    subscription := some "bp_link"
    feature := required_features }

def sampleIntrospectBad : IntrospectResponse :=
  { scope := some "user:library", subscription := none, feature := [] }

/-! ## `ModuleInterface.custom_url_parse` (interface.py, lines 91-134)

The three `re.search` patterns are embedded as scanning functions.  Each
`searchX` tries the pattern at every start position, leftmost first, exactly
as `re.search` does.  At a given position the Python regex engine's
backtracking order is honoured: optional groups prefer the present branch,
the word alternation is tried left to right, `.+?` is lazy, and `\d+` /
`[^/]+` are greedy; where the maximal-munch choice of a greedy group is
provably the only one that can succeed (because shortening the run would
place a character of the same class where a character of a different class
is required) the run is simply taken maximally. -/

/-- `beatport.com` where `.` is the regex any-character wildcard. -/
def hostTail (x : List Char) : Option (List Char) := do
  let a ← stripLit "beatport".toList x
  let b ← anyChar a
  stripLit "com".toList b

/-- `https?://(www.)?beatport.com` at the current position (`s?` and
`(www.)?` prefer their present branch; the two branches of each option are
mutually exclusive on any input, so `Option.orElse` realises the engine's
backtracking faithfully). -/
def matchSchemeHost (cs : List Char) : Option (List Char) := do
  let r1 ← stripLit "http".toList cs
  let r2 ← (do
      let x ← stripLit "s".toList r1
      stripLit "://".toList x) <|> stripLit "://".toList r1
  (do
    let w ← stripLit "www".toList r2
    let w2 ← anyChar w
    hostTail w2) <|> hostTail r2

/-- Library-playlist pattern
`https?://(www.)?beatport.com/library/playlists/(\d+)` at the current
position, returning the captured digit group. -/
def matchLibraryAt (cs : List Char) : Option (List Char) := do
  let r ← matchSchemeHost cs
  let r2 ← stripLit "/library/playlists/".toList r
  let (d, _) := takeDigits r2
  if d = [] then none else some d

def searchLibrary : List Char → Option (List Char)
  | [] => none
  | c :: cs =>
    match matchLibraryAt (c :: cs) with
    | some d => some d
    | none => searchLibrary cs

/-- Genre-chart pattern `/genre/[^/]+/(\d+)/hype-(\d+)` at the current
position.  `[^/]+` must stop exactly at the next `/` (a shorter run leaves a
non-slash where `/` is required), and backtracking the `\d+` groups cannot
help either, so the match is deterministic. -/
def matchGenreChartAt (cs : List Char) : Option (List Char × List Char) := do
  let r1 ← stripLit "/genre/".toList cs
  let (seg, r2) := takeRun (fun c => !(c == '/')) r1
  if seg = [] then none
  else do
    let r3 ← stripLit "/".toList r2
    let (d1, r4) := takeDigits r3
    if d1 = [] then none
    else do
      let r5 ← stripLit "/hype-".toList r4
      let (d2, _) := takeDigits r5
      if d2 = [] then none else some (d1, d2)

def searchGenreChart : List Char → Option (List Char × List Char)
  | [] => none
  | c :: cs =>
    match matchGenreChartAt (c :: cs) with
    | some x => some x
    | none => searchGenreChart cs

/-- The named alternation `(?P<type>track|release|artist|playlists|chart)`,
tried left to right (the five words start with distinct letters, so at most
one alternative can match at a position). -/
inductive UrlKind where
  | track | release | artist | playlists | chart
deriving DecidableEq

def matchTypeWord (cs : List Char) : Option (UrlKind × List Char) :=
  match stripLit "track".toList cs with
  | some r => some (.track, r)
  | none =>
    match stripLit "release".toList cs with
    | some r => some (.release, r)
    | none =>
      match stripLit "artist".toList cs with
      | some r => some (.artist, r)
      | none =>
        match stripLit "playlists".toList cs with
        | some r => some (.playlists, r)
        | none =>
          match stripLit "chart".toList cs with
          | some r => some (.chart, r)
          | none => none

/-- The continuation `/(?P<id>\d+)` tried at the current position: a literal
slash followed by the greedy digit capture. -/
def slashDigits (cs : List Char) : Option (List Char) :=
  match cs with
  | '/' :: r =>
    let (d, _) := takeDigits r
    if d = [] then none else some d
  | _ => none

/-- The lazy loop of `.+?/(?P<id>\d+)` after at least one character has been
consumed: try the continuation here, otherwise consume one more (non-newline)
wildcard character — shortest extension first, as `+?` requires. -/
def dotLazyLoop : List Char → Option (List Char)
  | [] => none
  | c :: rest =>
    match slashDigits (c :: rest) with
    | some d => some d
    | none => if c = '\n' then none else dotLazyLoop rest

/-- `.+?/(?P<id>\d+)`: the `+` makes the first wildcard character mandatory. -/
def matchAfterType (cs : List Char) : Option (List Char) :=
  match cs with
  | [] => none
  | c :: rest => if c = '\n' then none else dotLazyLoop rest

/-- Type word, slash, lazy middle part and id capture. -/
def typeAndRest (cs : List Char) : Option (UrlKind × List Char) := do
  let (k, r3) ← matchTypeWord cs
  let r4 ← stripLit "/".toList r3
  let d ← matchAfterType r4
  some (k, d)

/-- The optional country code `(?:[a-z]{2}/)?`. -/
def countryDrop (cs : List Char) : Option (List Char) :=
  match cs with
  | a :: b :: '/' :: rest => if a.isLower && b.isLower then some rest else none
  | _ => none

/-- Generic pattern `https?://(www.)?beatport.com/(?:[a-z]{2}/)?`
`(?P<type>track|release|artist|playlists|chart)/.+?/(?P<id>\d+)` at the
current position; the optional country code prefers its present branch and
falls back to the absent branch if the rest of the pattern fails after it. -/
def matchRegularAt (cs : List Char) : Option (UrlKind × List Char) := do
  let r1 ← matchSchemeHost cs
  let r2 ← stripLit "/".toList r1
  match countryDrop r2 with
  | some r2dropped =>
    match typeAndRest r2dropped with
    | some x => some x
    | none => typeAndRest r2
  | none => typeAndRest r2

def searchRegular : List Char → Option (UrlKind × List Char)
  | [] => none
  | c :: cs =>
    match matchRegularAt (c :: cs) with
    | some x => some x
    | none => searchRegular cs

inductive DownloadTypeEnum where
  | track | album | artist | playlist
deriving DecidableEq

/-- The `media_types` dict of `custom_url_parse`. -/
def media_types : UrlKind → DownloadTypeEnum
  | .track => .track
  | .release => .album
  | .artist => .artist
  | .playlists => .playlist
  | .chart => .playlist

/-- The `extra_kwargs` dict: each branch of `custom_url_parse` sets only one
of the two keys, so each field is an `Option` (`none` = key absent). -/
structure ExtraKwargs where
  is_library : Option Bool
  is_chart : Option Bool
deriving DecidableEq

structure MediaIdentification where
  media_type : DownloadTypeEnum
  media_id : String
  extra_kwargs : ExtraKwargs
deriving DecidableEq

/-- Result of `custom_url_parse`: a `MediaIdentification`, or the raised
`ValueError("Invalid URL format")`. -/
inductive ParseResult where
  | ok (m : MediaIdentification)
  | invalid (msg : String)
deriving DecidableEq

/-- `ModuleInterface.custom_url_parse`: library-playlist pattern first, then
the genre-chart pattern (building the composite `genre-<id>-hype-<type>`
chart id), then the generic pattern, else the `ValueError`. -/
def custom_url_parse (link : String) : ParseResult :=
  match searchLibrary link.toList with
  | some d =>
    .ok { media_type := .playlist, media_id := String.mk d
          extra_kwargs := { is_library := some true, is_chart := none } }
  | none =>
  match searchGenreChart link.toList with
  | some (g, t) =>
    .ok { media_type := .playlist
          media_id := "genre-" ++ String.mk g ++ "-hype-" ++ String.mk t
          extra_kwargs := { is_library := none, is_chart := some true } }
  | none =>
  match searchRegular link.toList with
  | some (k, d) =>
    .ok { media_type := media_types k, media_id := String.mk d
          extra_kwargs := { is_library := none, is_chart := some (decide (k = .chart)) } }
  | none => .invalid "Invalid URL format"

/-! ## Debug-log sanitisation (beatport_api.py, lines 55-146) -/

/-- A parsed JSON value, as handed to `_sanitize_data` by
`_log_request_response` (request bodies and `response.json()` results). -/
inductive JVal where
  | str (s : String)
  | num (n : Int)
  | boolean (b : Bool)
  | null
  | arr (items : List JVal)
  | obj (fields : List (String × JVal))

/-- The `sensitive_fields` dict of `_sanitize_data` (field name → mask). -/
def sensitive_fields : List (String × String) :=
  [("username", "***"), ("password", "***"), ("email", "***@***.***"),
   ("firstName", "***"), ("lastName", "***"), ("phone_number", "***"),
   ("phone_primary", "***"), ("address1", "***"), ("address2", "***"),
   ("city", "***"), ("zip", "***"), ("first_name", "***"),
   ("last_name", "***"), ("name", "***"), ("card_type", "***"),
   ("last_four", "***")]

mutual
/-- `BeatportApi._sanitize_data` on a parsed value: a dict is copied with
its sensitive fields masked and its dict / list values walked; every
non-dict value (including a top-level list) is returned unchanged.  The
source's two sequential loops over the same dict (mask all sensitive keys,
then recurse into values) are fused per key here, which is equivalent
because a masked value is a string and the recursion loop leaves strings
alone. -/
def sanitize : JVal → JVal
  | .obj fields => .obj (sanitizeFields fields)
  | v => v

/-- The body of the recursion loop of `_sanitize_data` for one value:
`self._sanitize_data(value)` on a dict value (which, the value being a
dict, is `.obj` of the sanitised fields), the list comprehension on a list
value, anything else unchanged. -/
def sanitizeValue : JVal → JVal
  | .obj f => .obj (sanitizeFields f)
  | .arr items => .arr (sanitizeListItems items)
  | w => w

/-- Per-key work of `_sanitize_data`: mask a sensitive key (the recursion
loop then ignores the string mask); otherwise apply the recursion loop body
to the value. -/
def sanitizeFields : List (String × JVal) → List (String × JVal)
  | [] => []
  | (k, v) :: rest =>
    (k, match sensitive_fields.lookup k with
        | some m => JVal.str m
        | none => sanitizeValue v) :: sanitizeFields rest

/-- `[self._sanitize_data(item) if isinstance(item, dict) else item
for item in value]`: dict items are sanitised, every other item — including
a nested list — is kept as it is. -/
def sanitizeListItems : List JVal → List JVal
  | [] => []
  | v :: rest =>
    (match v with
     | .obj f => .obj (sanitizeFields f)
     | w => w) :: sanitizeListItems rest
end

mutual
/-- The redaction invariant that `sanitize` establishes (claim C8): every
sensitive key reachable through dict nesting, or sitting in a dict that is a
direct item of a dict's list value, holds its mask. -/
def jOk : JVal → Bool
  | .obj fields => jOkFields fields
  | _ => true

/-- Check for one field `(k, v)`: a sensitive key must hold its string
mask; a non-sensitive dict or list value is checked recursively. -/
def jOkValue (k : String) (v : JVal) : Bool :=
  match sensitive_fields.lookup k with
  | some m =>
    match v with
    | .str s => decide (s = m)
    | _ => false
  | none =>
    match v with
    | .obj f => jOkFields f
    | .arr items => jOkItems items
    | _ => true

def jOkFields : List (String × JVal) → Bool
  | [] => true
  | (k, v) :: rest => jOkValue k v && jOkFields rest

def jOkItems : List JVal → Bool
  | [] => true
  | v :: rest =>
    (match v with
     | .obj f => jOkFields f
     | _ => true) && jOkItems rest
end

/-- A logged value with a credential field nested inside a list inside a
list: `{"items": [[{"password": "hunter2"}]]}`. -/
def c8input : JVal :=
  .obj [("items", .arr [.arr [.obj [("password", .str "hunter2")]]])]

/-- What C8 as stated demands for `c8input`: the password masked. -/
def c8masked : JVal :=
  .obj [("items", .arr [.arr [.obj [("password", .str "***")]]])]

/-! ## `ModuleInterface._generate_artwork_url` (interface.py, lines 194-208) -/

def allDigits (cs : List Char) : Bool := cs.all Char.isDigit

/-- The second `\d{3,4}` of the resolution pattern `\d{3,4}x\d{3,4}`,
greedy: four digits if available, else three; `a` is the length of the
first group and the returned value the total match length. -/
def trySecondDigits (a : Nat) (rest : List Char) : Option Nat :=
  let d4 := rest.take 4
  if d4.length = 4 ∧ allDigits d4 = true then some (a + 1 + 4)
  else
    let d3 := rest.take 3
    if d3.length = 3 ∧ allDigits d3 = true then some (a + 1 + 3) else none

/-- `\d{a}x\d{3,4}` at the start of `cs` (first group fixed at `a` digits). -/
def tryWxH (a : Nat) (cs : List Char) : Option Nat :=
  let d := cs.take a
  if d.length = a ∧ allDigits d = true then
    match cs.drop a with
    | 'x' :: rest => trySecondDigits a rest
    | _ => none
  else none

/-- Match of `re.compile(r'\d{3,4}x\d{3,4}')` at the current position,
returning the match length.  The first `\d{3,4}` is greedy (four digits
first, then three); no further backtracking can succeed because shortening
the first group would leave a digit where the `x` is required. -/
def matchLenAt (cs : List Char) : Option Nat :=
  match tryWxH 4 cs with
  | some n => some n
  | none => tryWxH 3 cs

/-- `re.search(res_pattern, cover_url)` finds a match: some position
(leftmost first) matches. -/
def hasWxH : List Char → Bool
  | [] => false
  | c :: cs => (matchLenAt (c :: cs)).isSome || hasWxH cs

/-- The replacement text `'{w}x{h}'` of the `re.sub` call. -/
def templateChars : List Char := ['\x7b', 'w', '\x7d', 'x', '\x7b', 'h', '\x7d']

/-- The scan of `re.sub(res_pattern, '{w}x{h}', cover_url)`: at each
position try the pattern; on a match of length `n` emit the replacement and
skip the `n` matched characters, otherwise copy one character and advance.
The first argument counts match characters still to be skipped. -/
def subAux : Nat → List Char → List Char
  | _ + 1, [] => []
  | 0, [] => []
  | 0, c :: rest =>
    match matchLenAt (c :: rest) with
    | some n => templateChars ++ subAux (n - 1) rest
    | none => c :: subAux 0 rest
  | k + 1, _ :: rest => subAux k rest

/-- `re.sub(res_pattern, '{w}x{h}', cover_url)`. -/
def subWxH (cs : List Char) : List Char := subAux 0 cs

/-- `str(size)`, as interpolated by `str.format`. -/
def natChars (n : Nat) : List Char := (Nat.repr n).toList

/-- Python `cover_url.format(w=size, h=size)` on a character list: `{w}` and
`{h}` are replaced by the rendered size, `{{` and `}}` are escapes, any
other use of a brace raises (modelled as `none`), and every other character
is copied. -/
def formatWH (size : Nat) : List Char → Option (List Char)
  | [] => some []
  | '\x7b' :: 'w' :: '\x7d' :: rest => (formatWH size rest).map (fun t => natChars size ++ t)
  | '\x7b' :: 'h' :: '\x7d' :: rest => (formatWH size rest).map (fun t => natChars size ++ t)
  | '\x7b' :: '\x7b' :: rest => (formatWH size rest).map (fun t => '\x7b' :: t)
  | '\x7d' :: '\x7d' :: rest => (formatWH size rest).map (fun t => '\x7d' :: t)
  | '\x7b' :: _ => none
  | '\x7d' :: _ => none
  | c :: rest => (formatWH size rest).map (fun t => c :: t)

/-- No brace characters (so `format` treats every character literally). -/
def braceFree (cs : List Char) : Bool :=
  cs.all (fun c => decide (c ≠ '\x7b' ∧ c ≠ '\x7d'))

/-- `ModuleInterface._generate_artwork_url`: cap the size at `max_size`
(default 1400), rewrite every embedded fixed `WxH` resolution token to the
`{w}x{h}` template when the pattern occurs somewhere in the URL, then fill
the template placeholders with the capped size. -/
def generate_artwork_url (cover_url : List Char) (size : Nat)
    (max_size : Nat := 1400) : Option (List Char) :=
  let size := if size > max_size then max_size else size
  let cover_url := if hasWxH cover_url then subWxH cover_url else cover_url
  formatWH size cover_url

/-- The hypothesis of claim C4: the URL contains a fixed `WxH` resolution
token, i.e. 3-4 digits, an `x`, and 3-4 digits, somewhere in the string. -/
def ContainsResToken (cs : List Char) : Prop :=
  ∃ l d1 d2 r, cs = l ++ (d1 ++ 'x' :: (d2 ++ r))
    ∧ 3 ≤ d1.length ∧ d1.length ≤ 4 ∧ allDigits d1 = true
    ∧ 3 ≤ d2.length ∧ d2.length ≤ 4 ∧ allDigits d2 = true

def wTokenChars : List Char := ['\x7b', 'w', '\x7d']

def hTokenChars : List Char := ['\x7b', 'h', '\x7d']

/-- Concrete vendor-style URL with an embedded `500x500` token, for the C4
witness. -/
def sampleCoverUrl : List Char := "https://img.example/ab/500x500/cover.jpg".toList

/-! ## Theorems -/

theorem takeRun_append (p : Char → Bool) (d r : List Char)
    (hd : ∀ c ∈ d, p c = true) (hr : ∀ c cs, r = c :: cs → p c = false) :
    takeRun p (d ++ r) = (d, r) := by
  induction d with
  | nil =>
    cases r with
    | nil => rfl
    | cons c cs => simp [takeRun, hr c cs rfl]
  | cons c cs ih =>
    have hc : p c = true := hd c (by simp)
    have ih2 := ih (fun x hx => hd x (by simp [hx]))
    simp [takeRun, hc, ih2]

theorem stripLit_append (p r : List Char) : stripLit p (p ++ r) = some r := by
  induction p with
  | nil => rfl
  | cons c cs ih => simp [stripLit, ih]

/-- C1: for every chart identifier of the composite token shape
`genre-<id>-hype-<type>` (nonempty digit groups), `get_chart_tracks`
requests the genre-hype endpoint `catalog/genres/<id>/hype/<type>/tracks`;
for every chart identifier not of that shape — per the spec's data model a
plain numeric ID — it requests the standard endpoint
`catalog/charts/<id>/tracks`. -/
theorem C1_chart_routing (s : String) :
    (∀ d1 d2 : List Char, d1 ≠ [] → d2 ≠ [] →
      (∀ c ∈ d1, c.isDigit = true) → (∀ c ∈ d2, c.isDigit = true) →
      s.toList = "genre-".toList ++ d1 ++ "-hype-".toList ++ d2 →
      get_chart_tracks_endpoint s =
        "catalog/genres/" ++ String.mk d1 ++ "/hype/" ++ String.mk d2 ++ "/tracks")
    ∧ ((s.toList ≠ [] ∧ ∀ c ∈ s.toList, c.isDigit = true) →
      get_chart_tracks_endpoint s = "catalog/charts/" ++ s ++ "/tracks") := by
  constructor
  · intro d1 d2 hd1 hd2 hdig1 hdig2 hs
    have e1 : "genre-".toList ++ d1 ++ "-hype-".toList ++ d2
        = "genre-".toList ++ (d1 ++ ("-hype-".toList ++ d2)) := by simp
    have ht1 : takeDigits (d1 ++ '-' :: 'h' :: 'y' :: 'p' :: 'e' :: '-' :: d2)
        = (d1, '-' :: 'h' :: 'y' :: 'p' :: 'e' :: '-' :: d2) := by
      apply takeRun_append _ _ _ hdig1
      intro c cs hc
      have hch : c = '-' := by
        have h2 := congrArg List.head? hc
        simpa using h2.symm
      simp [hch]
    have ht2 : takeDigits d2 = (d2, []) := by
      have h0 : takeDigits (d2 ++ []) = (d2, []) := by
        apply takeRun_append _ _ _ hdig2
        intro c cs hc
        simp at hc
      simpa using h0
    have h1 : genreHypeMatch s.toList = some (d1, d2) := by
      rw [hs, e1]
      simp [genreHypeMatch, stripLit, ht1, ht2, hd1, hd2]
    have h1d : genreHypeMatch s.data = some (d1, d2) := h1
    simp [get_chart_tracks_endpoint, h1d]
  · rintro ⟨hne, hdig⟩
    have h1 : genreHypeMatch s.toList = none := by
      cases hs : s.toList with
      | nil => exact absurd hs hne
      | cons c cs =>
        have hc : c.isDigit = true := hdig c (by rw [hs]; simp)
        have hcg : c ≠ 'g' := by
          intro h
          rw [h] at hc
          simp at hc
        simp [genreHypeMatch, stripLit, hcg]
    have h1d : genreHypeMatch s.data = none := h1
    simp [get_chart_tracks_endpoint, h1d]

theorem C1_chart_routing_witness :
    get_chart_tracks_endpoint "genre-12-hype-3" = "catalog/genres/12/hype/3/tracks"
    ∧ get_chart_tracks_endpoint "555" = "catalog/charts/555/tracks" := by
  have h1 := (C1_chart_routing "genre-12-hype-3").1 ['1', '2'] ['3']
    (by decide) (by decide) (by decide) (by decide) (by decide)
  have h2 := (C1_chart_routing "555").2 ⟨by decide, by decide⟩
  exact ⟨h1.trans (by decide), h2⟩

/-- C5: the GET dispatch returns the parsed body on HTTP 200/201/202, raises
an auth-required failure (`ValueError`) on 401, and raises a generic
connection failure (`ConnectionError`) carrying the raw response text on any
other status. -/
theorem C5_get_dispatch {α : Type} (status : Nat) (text : String) (body : α) :
    ((status = 200 ∨ status = 201 ∨ status = 202) →
      get_dispatch status text body = .ok body)
    ∧ (status = 401 → get_dispatch status text body = .authRequired text)
    ∧ (status ≠ 401 → ¬(status = 200 ∨ status = 201 ∨ status = 202) →
      get_dispatch status text body = .connectionError text) := by
  refine ⟨?_, ?_, ?_⟩
  · rintro (h | h | h) <;> subst h <;> rfl
  · intro h
    subst h
    rfl
  · intro h1 h2
    unfold get_dispatch
    rw [if_neg h1, if_pos h2]

theorem C5_get_dispatch_witness :
    get_dispatch 200 "body" (0 : Nat) = .ok 0
    ∧ get_dispatch 401 "denied" (0 : Nat) = .authRequired "denied"
    ∧ get_dispatch 503 "oops" (0 : Nat) = .connectionError "oops" := by
  refine ⟨(C5_get_dispatch 200 "body" 0).1 (by decide), ?_, ?_⟩
  · exact (C5_get_dispatch 401 "denied" 0).2.1 rfl
  · exact (C5_get_dispatch 503 "oops" 0).2.2 (by decide) (by decide)

/-- C3: tiers mapping to the vendor quality `flac` (LOSSLESS and HIFI) yield
bit_depth 16, bitrate 1411 and codec FLAC; the HIGH tier yields bitrate 256
and codec AAC; all remaining tiers yield bitrate 128 or 256, codec AAC and
no bit depth. -/
theorem C3_quality_mapping (tier : QualityEnum) :
    ((tier = .LOSSLESS ∨ tier = .HIFI) →
      get_track_info_quality tier = ⟨some 1411, some 16, .FLAC⟩)
    ∧ (tier = .HIGH →
      (get_track_info_quality tier).bitrate = some 256
      ∧ (get_track_info_quality tier).codec = .AAC)
    ∧ (tier ≠ .LOSSLESS → tier ≠ .HIFI →
      ((get_track_info_quality tier).bitrate = some 128
        ∨ (get_track_info_quality tier).bitrate = some 256)
      ∧ (get_track_info_quality tier).codec = .AAC
      ∧ (get_track_info_quality tier).bit_depth = none) := by
  cases tier <;> exact ⟨by decide, by decide, by decide⟩

theorem C3_quality_mapping_witness :
    get_track_info_quality .LOSSLESS = ⟨some 1411, some 16, .FLAC⟩
    ∧ get_track_info_quality .HIFI = ⟨some 1411, some 16, .FLAC⟩
    ∧ (get_track_info_quality .HIGH).bitrate = some 256
    ∧ (get_track_info_quality .HIGH).codec = .AAC
    ∧ (get_track_info_quality .LOW).bit_depth = none := by
  refine ⟨(C3_quality_mapping .LOSSLESS).1 (Or.inl rfl),
    (C3_quality_mapping .HIFI).1 (Or.inr rfl),
    ((C3_quality_mapping .HIGH).2.1 rfl).1,
    ((C3_quality_mapping .HIGH).2.1 rfl).2,
    ((C3_quality_mapping .LOW).2.2 (by decide) (by decide)).2.2⟩

theorem notStreamable_ne_regionLock (n : String) (a : Nat) :
    notStreamableMsg n ≠ regionLockedMsg a := by
  intro h
  have h2 := congrArg String.data h
  simp only [notStreamableMsg, regionLockedMsg, String.data_append] at h2
  simp at h2

theorem notYetReleased_ne_regionLock (n : String) (a : Nat) :
    notYetReleasedMsg n ≠ regionLockedMsg a := by
  intro h
  have h2 := congrArg String.data h
  simp only [notYetReleasedMsg, regionLockedMsg, String.data_append] at h2
  simp at h2

/-- C6 counterexample: a track whose release fetch fails with a
`Territory Restricted.` message but which is also not available for
streaming ends up with the not-streamable error, not the region-lock error,
so the claim as stated (error field is the region-lock string) is false. -/
theorem C6_counterexample :
    get_track_info_error (.error "Territory Restricted.") 7
      ⟨"Darkside", false, false⟩ = some (notStreamableMsg "Darkside")
    ∧ notStreamableMsg "Darkside" ≠ regionLockedMsg 7 := by
  exact ⟨by decide, by decide⟩

/-- C6 (amended): for every track whose release fetch fails with a
`ConnectionError` whose message contains `Territory Restricted.`, and which
is available for streaming and not in preorder, the failure is not
propagated and the record's error field is the non-null region-lock string
naming the album. -/
theorem C6_region_lock_error (e : String) (album_id : Nat) (track : TrackAvail)
    (hsub : containsSub territorySub e.toList = true)
    (hstream : track.is_available_for_streaming = true)
    (hpre : track.preorder = false) :
    get_track_info_error (.error e) album_id track = some (regionLockedMsg album_id)
    ∧ get_track_info_error (.error e) album_id track ≠ none := by
  have hsub2 : containsSub territorySub e.data = true := hsub
  constructor
  · simp [get_track_info_error, hsub2, hstream, hpre]
  · simp [get_track_info_error, hsub2, hstream, hpre]

theorem C6_region_lock_error_witness :
    containsSub territorySub "HTTP 403: Territory Restricted.".toList = true
    ∧ get_track_info_error (.error "HTTP 403: Territory Restricted.") 12
        ⟨"Darkside", true, false⟩ = some (regionLockedMsg 12) := by
  refine ⟨by decide, (C6_region_lock_error "HTTP 403: Territory Restricted." 12
    ⟨"Darkside", true, false⟩ (by decide) rfl rfl).1⟩

/-- C10: the streamability and preorder checks run after the region-lock
detection and overwrite its error: a region-locked track that is not
streamable gets the not-streamable message, and a region-locked streamable
preorder track gets the not-yet-released message — in both cases not the
region-lock message. -/
theorem C10_availability_overwrites_region_lock (e : String) (album_id : Nat)
    (track : TrackAvail)
    (hsub : containsSub territorySub e.toList = true) :
    (track.is_available_for_streaming = false →
      get_track_info_error (.error e) album_id track = some (notStreamableMsg track.name)
      ∧ get_track_info_error (.error e) album_id track ≠ some (regionLockedMsg album_id))
    ∧ (track.is_available_for_streaming = true → track.preorder = true →
      get_track_info_error (.error e) album_id track = some (notYetReleasedMsg track.name)
      ∧ get_track_info_error (.error e) album_id track ≠ some (regionLockedMsg album_id)) := by
  constructor
  · intro hstream
    have h1 : get_track_info_error (.error e) album_id track
        = some (notStreamableMsg track.name) := by
      simp [get_track_info_error, hstream]
    refine ⟨h1, ?_⟩
    rw [h1]
    simp [notStreamable_ne_regionLock]
  · intro hstream hpre
    have h1 : get_track_info_error (.error e) album_id track
        = some (notYetReleasedMsg track.name) := by
      simp [get_track_info_error, hstream, hpre]
    refine ⟨h1, ?_⟩
    rw [h1]
    simp [notYetReleased_ne_regionLock]

theorem C10_availability_overwrites_region_lock_witness :
    get_track_info_error (.error "Territory Restricted.") 7
      ⟨"Darkside", false, false⟩ = some (notStreamableMsg "Darkside")
    ∧ get_track_info_error (.error "Territory Restricted.") 7
      ⟨"Moonside", true, true⟩ = some (notYetReleasedMsg "Moonside") := by
  refine ⟨((C10_availability_overwrites_region_lock "Territory Restricted." 7
      ⟨"Darkside", false, false⟩ (by decide)).1 rfl).1,
    ((C10_availability_overwrites_region_lock "Territory Restricted." 7
      ⟨"Moonside", true, true⟩ (by decide)).2 rfl rfl).1⟩

theorem annotateTracksFrom_map_track (total : Nat) (l : List PlaylistTrack) :
    ∀ k, (annotateTracksFrom k total l).map AnnotatedTrack.track = l := by
  induction l with
  | nil => intro k; rfl
  | cons t ts ih => intro k; simp [annotateTracksFrom, ih]

theorem annotateTracksFrom_map_number (total : Nat) (l : List PlaylistTrack) :
    ∀ k, (annotateTracksFrom k total l).map AnnotatedTrack.track_number
      = List.range' (k + 1) l.length := by
  induction l with
  | nil => intro k; rfl
  | cons t ts ih =>
    intro k
    simp [annotateTracksFrom, ih, List.range'_succ]

theorem annotateTracksFrom_total (total : Nat) (l : List PlaylistTrack) :
    ∀ k t, t ∈ annotateTracksFrom k total l → t.total_tracks = total := by
  induction l with
  | nil => intro k t ht; simp [annotateTracksFrom] at ht
  | cons x xs ih =>
    intro k t ht
    simp only [annotateTracksFrom, List.mem_cons] at ht
    rcases ht with h | h
    · rw [h]
    · exact ih (k + 1) t h

/-- C2: for a page-1 response reporting 250 items at page size 100, the
aggregation requests exactly pages 1, 2 and 3, and returns all 250 items in
fetch order (chart pages used directly, playlist pages unwrapped one
level), annotated with 1-based track numbers 1..250 and with
`total_tracks = 250`. -/
theorem C2_pagination
    (fetchChart : Nat → PageResponse PlaylistTrack)
    (fetchPlaylist : Nat → PageResponse PlaylistEntry)
    (hc : (fetchChart 1).count = 250)
    (hp : (fetchPlaylist 1).count = 250)
    (hc1 : (fetchChart 1).results.length = 100)
    (hc2 : (fetchChart 2).results.length = 100)
    (hc3 : (fetchChart 3).results.length = 50)
    (hp1 : (fetchPlaylist 1).results.length = 100)
    (hp2 : (fetchPlaylist 2).results.length = 100)
    (hp3 : (fetchPlaylist 3).results.length = 50) :
    playlistPagesRequested (fetchChart 1).count = [1, 2, 3]
    ∧ (get_playlist_info_tracks true fetchChart fetchPlaylist).map AnnotatedTrack.track
      = (fetchChart 1).results ++ (fetchChart 2).results ++ (fetchChart 3).results
    ∧ (get_playlist_info_tracks true fetchChart fetchPlaylist).map AnnotatedTrack.track_number
      = List.range' 1 250
    ∧ (∀ t ∈ get_playlist_info_tracks true fetchChart fetchPlaylist, t.total_tracks = 250)
    ∧ (get_playlist_info_tracks false fetchChart fetchPlaylist).map AnnotatedTrack.track
      = ((fetchPlaylist 1).results ++ (fetchPlaylist 2).results
          ++ (fetchPlaylist 3).results).map PlaylistEntry.track
    ∧ (get_playlist_info_tracks false fetchChart fetchPlaylist).map AnnotatedTrack.track_number
      = List.range' 1 250
    ∧ (∀ t ∈ get_playlist_info_tracks false fetchChart fetchPlaylist, t.total_tracks = 250) := by
  have hrange : List.range' 2 ((250 - 1) / 100) = [2, 3] := by decide
  have hcollC : collectChartTracks fetchChart
      = (fetchChart 1).results ++ (fetchChart 2).results ++ (fetchChart 3).results := by
    unfold collectChartTracks
    rw [hc, hrange]
    simp [List.foldl, List.append_assoc]
  have hcollP : collectPlaylistTracks fetchPlaylist
      = ((fetchPlaylist 1).results).map PlaylistEntry.track
        ++ ((fetchPlaylist 2).results).map PlaylistEntry.track
        ++ ((fetchPlaylist 3).results).map PlaylistEntry.track := by
    unfold collectPlaylistTracks
    rw [hp, hrange]
    simp [List.foldl, List.append_assoc]
  have hlenC : (collectChartTracks fetchChart).length = 250 := by
    rw [hcollC]
    simp [hc1, hc2, hc3]
  have hlenP : (collectPlaylistTracks fetchPlaylist).length = 250 := by
    rw [hcollP]
    simp [hp1, hp2, hp3]
  have hT : get_playlist_info_tracks true fetchChart fetchPlaylist
      = annotateTracksFrom 0 (fetchChart 1).count (collectChartTracks fetchChart) := by
    simp [get_playlist_info_tracks, annotateTracks]
  have hF : get_playlist_info_tracks false fetchChart fetchPlaylist
      = annotateTracksFrom 0 (fetchPlaylist 1).count (collectPlaylistTracks fetchPlaylist) := by
    simp [get_playlist_info_tracks, annotateTracks]
  refine ⟨?_, ?_, ?_, ?_, ?_, ?_, ?_⟩
  · rw [hc]
    decide
  · rw [hT, annotateTracksFrom_map_track, hcollC]
  · rw [hT, annotateTracksFrom_map_number, hlenC]
  · intro t ht
    rw [hT] at ht
    have h2 := annotateTracksFrom_total (fetchChart 1).count _ 0 t ht
    rw [h2, hc]
  · rw [hF, annotateTracksFrom_map_track, hcollP]
    simp [List.map_append]
  · rw [hF, annotateTracksFrom_map_number, hlenP]
  · intro t ht
    rw [hF] at ht
    have h2 := annotateTracksFrom_total (fetchPlaylist 1).count _ 0 t ht
    rw [h2, hp]

/-- C9: login succeeds exactly when the token introspection carries the
`user:dj` scope, a subscription equal to `bp_link` or `bp_link_pro` (hence
non-empty), and all three required feature flags; and each failing check
produces its own descriptive error message. -/
theorem C9_login_validation (sub : IntrospectResponse) :
    (login_validate none sub = .ok ↔
      (hasDjScope sub = true
        ∧ (sub.subscription = some "bp_link" ∨ sub.subscription = some "bp_link_pro")
        ∧ ∀ f ∈ required_features, f ∈ sub.feature))
    ∧ (hasDjScope sub = false →
      login_validate none sub = .err "Account does not have DJ/streaming permissions")
    ∧ (hasDjScope sub = true →
      (sub.subscription = none ∨ sub.subscription = some "") →
      login_validate none sub = .err "No active subscription found")
    ∧ (hasDjScope sub = true →
      (sub.subscription.getD "") ≠ "" →
      sub.subscription ≠ some "bp_link" → sub.subscription ≠ some "bp_link_pro" →
      login_validate none sub = .err "Account does not have a LINK or LINK PRO subscription")
    ∧ (hasDjScope sub = true →
      (sub.subscription = some "bp_link" ∨ sub.subscription = some "bp_link_pro") →
      missing_features sub ≠ [] →
      login_validate none sub = .err ("Account missing required features: "
        ++ String.intercalate ", " (missing_features sub))) := by
  have hfilter : (missing_features sub = []) ↔ ∀ f ∈ required_features, f ∈ sub.feature := by
    unfold missing_features
    rw [List.filter_eq_nil_iff]
    constructor
    · intro h f hf
      have h2 := h f hf
      simpa using h2
    · intro h f hf
      simpa using h f hf
  refine ⟨?_, ?_, ?_, ?_, ?_⟩
  · cases hscope : hasDjScope sub with
    | false => simp [login_validate, hscope]
    | true =>
      cases hs : sub.subscription with
      | none => simp [login_validate, hscope, hs]
      | some s =>
        by_cases hse : s = ""
        · subst hse
          simp [login_validate, hscope, hs]
        · by_cases htier : s = "bp_link" ∨ s = "bp_link_pro"
          · rcases htier with h | h <;> subst h <;>
              by_cases hmiss : missing_features sub = [] <;>
              simp [login_validate, missingBranch, hscope, hs, hmiss, ← hfilter]
          · have hd : ¬(sub.subscription = some "bp_link"
                ∨ sub.subscription = some "bp_link_pro") := by
              rw [hs]
              simpa using htier
            simp [login_validate, hscope, hs, hse, htier, hd]
  · intro hscope
    simp [login_validate, hscope]
  · intro hscope hsub
    rcases hsub with h | h <;> simp [login_validate, hscope, h]
  · intro hscope hne h3 h4
    cases hs : sub.subscription with
    | none =>
      rw [hs] at hne
      simp at hne
    | some s =>
      rw [hs] at hne h3 h4
      simp only [Option.getD_some] at hne
      have hd : ¬(s = "bp_link" ∨ s = "bp_link_pro") := by
        rintro (h | h) <;> subst h
        · exact h3 rfl
        · exact h4 rfl
      simp [login_validate, hscope, hs, hne, hd]
  · intro hscope htier hmiss
    rcases htier with h | h <;>
      simp [login_validate, missingBranch, hscope, h, hmiss]

theorem sanitize_jOk_aux : ∀ n : Nat,
    (∀ fs : List (String × JVal), sizeOf fs ≤ n → jOkFields (sanitizeFields fs) = true)
    ∧ (∀ xs : List JVal, sizeOf xs ≤ n → jOkItems (sanitizeListItems xs) = true) := by
  intro n
  induction n using Nat.strong_induction_on with
  | _ n ih =>
    constructor
    · intro fs hfs
      cases fs with
      | nil => simp [sanitizeFields, jOkFields]
      | cons p rest =>
        obtain ⟨k, v⟩ := p
        have hbrest : sizeOf rest < n := by
          simp only [List.cons.sizeOf_spec, Prod.mk.sizeOf_spec] at hfs
          omega
        have hrest := (ih (sizeOf rest) hbrest).1 rest le_rfl
        have hhead : jOkValue k (match sensitive_fields.lookup k with
            | some m => JVal.str m
            | none => sanitizeValue v) = true := by
          cases hlk : sensitive_fields.lookup k with
          | some m => simp [jOkValue, hlk]
          | none =>
            cases v with
            | obj f =>
              have hbf : sizeOf f < n := by
                simp only [List.cons.sizeOf_spec, Prod.mk.sizeOf_spec,
                  JVal.obj.sizeOf_spec] at hfs
                omega
              have hf := (ih (sizeOf f) hbf).1 f le_rfl
              simp [jOkValue, hlk, sanitizeValue, hf]
            | arr items =>
              have hbi : sizeOf items < n := by
                simp only [List.cons.sizeOf_spec, Prod.mk.sizeOf_spec,
                  JVal.arr.sizeOf_spec] at hfs
                omega
              have hi := (ih (sizeOf items) hbi).2 items le_rfl
              simp [jOkValue, hlk, sanitizeValue, hi]
            | str s => simp [jOkValue, hlk, sanitizeValue]
            | num i => simp [jOkValue, hlk, sanitizeValue]
            | boolean b => simp [jOkValue, hlk, sanitizeValue]
            | null => simp [jOkValue, hlk, sanitizeValue]
        simp [sanitizeFields, jOkFields, hhead, hrest]
    · intro xs hxs
      cases xs with
      | nil => simp [sanitizeListItems, jOkItems]
      | cons v rest =>
        have hbrest : sizeOf rest < n := by
          simp only [List.cons.sizeOf_spec] at hxs
          omega
        have hrest := (ih (sizeOf rest) hbrest).2 rest le_rfl
        cases v with
        | obj f =>
          have hbf : sizeOf f < n := by
            simp only [List.cons.sizeOf_spec, JVal.obj.sizeOf_spec] at hxs
            omega
          have hf := (ih (sizeOf f) hbf).1 f le_rfl
          simp [sanitizeListItems, jOkItems, hf, hrest]
        | str s => simp [sanitizeListItems, jOkItems, hrest]
        | num i => simp [sanitizeListItems, jOkItems, hrest]
        | boolean b => simp [sanitizeListItems, jOkItems, hrest]
        | null => simp [sanitizeListItems, jOkItems, hrest]
        | arr items => simp [sanitizeListItems, jOkItems, hrest]

/-- C8 counterexample: the claim says redaction reaches fields at any
nesting depth inside nested objects and arrays, but a password inside a
list nested in a list value is left untouched (`_sanitize_data` only
recurses into list items that are dicts, and only one list level deep). -/
theorem C8_counterexample :
    sanitize c8input = c8input ∧ sanitize c8input ≠ c8masked := by
  have h : sanitize c8input = c8input := by
    simp [c8input, sanitize, sanitizeFields, sanitizeValue, sanitizeListItems,
      sensitive_fields, List.lookup]
  refine ⟨h, ?_⟩
  rw [h]
  intro heq
  simp [c8input, c8masked] at heq

/-- C8 (amended): the sanitiser masks every credential-like field reachable
through nested objects and through objects that are direct items of an
object's array value; it does not reach through an array nested inside an
array (see `C8_counterexample`), and a non-object top-level value is
returned unchanged. -/
theorem C8_sanitize_invariant (v : JVal) : jOk (sanitize v) = true := by
  cases v with
  | obj fields =>
    have h := (sanitize_jOk_aux (sizeOf fields)).1 fields le_rfl
    simpa [sanitize, jOk] using h
  | str s => simp [sanitize, jOk]
  | num i => simp [sanitize, jOk]
  | boolean b => simp [sanitize, jOk]
  | null => simp [sanitize, jOk]
  | arr items => simp [sanitize, jOk]

/-- C7: `https://www.beatport.com/library/playlists/555` parses to a
playlist identification with media_id `555` and the library flag set; a
normal `.../playlists/<name>/555` URL parses to a playlist identification
without the library flag (and with the chart flag false); a link matching
none of the recognised patterns raises `ValueError("Invalid URL format")`. -/
theorem C7_custom_url_parse :
    custom_url_parse "https://www.beatport.com/library/playlists/555"
      = .ok { media_type := .playlist, media_id := "555"
              extra_kwargs := { is_library := some true, is_chart := none } }
    ∧ custom_url_parse "https://www.beatport.com/playlists/chill-vibes/555"
      = .ok { media_type := .playlist, media_id := "555"
              extra_kwargs := { is_library := none, is_chart := some false } }
    ∧ ∀ link : String, searchLibrary link.toList = none →
        searchGenreChart link.toList = none → searchRegular link.toList = none →
        custom_url_parse link = .invalid "Invalid URL format" := by
  refine ⟨by decide, by decide, ?_⟩
  intro link h1 h2 h3
  have h1d : searchLibrary link.data = none := h1
  have h2d : searchGenreChart link.data = none := h2
  have h3d : searchRegular link.data = none := h3
  simp [custom_url_parse, h1d, h2d, h3d]

theorem C7_custom_url_parse_witness :
    custom_url_parse "https://example.com/somewhere" = .invalid "Invalid URL format"
    ∧ custom_url_parse "https://www.beatport.com/library/playlists/555"
      = .ok { media_type := .playlist, media_id := "555"
              extra_kwargs := { is_library := some true, is_chart := none } } := by
  exact ⟨C7_custom_url_parse.2.2 "https://example.com/somewhere"
      (by decide) (by decide) (by decide),
    C7_custom_url_parse.1⟩

theorem C9_login_validation_witness :
    login_validate none sampleIntrospectGood = .ok
    ∧ login_validate none sampleIntrospectBad
        = .err "Account does not have DJ/streaming permissions" := by
  constructor
  · exact (C9_login_validation sampleIntrospectGood).1.mpr
      ⟨by decide, Or.inl rfl, by decide⟩
  · exact (C9_login_validation sampleIntrospectBad).2.1 (by decide)

theorem C2_pagination_witness :
    (sampleChartFetch 1).count = 250
    ∧ playlistPagesRequested (sampleChartFetch 1).count = [1, 2, 3]
    ∧ (get_playlist_info_tracks true sampleChartFetch samplePlaylistFetch).map
        AnnotatedTrack.track_number = List.range' 1 250 := by
  have h := C2_pagination sampleChartFetch samplePlaylistFetch rfl rfl
    (by simp [sampleChartFetch]) (by simp [sampleChartFetch])
    (by simp [sampleChartFetch]) (by simp [samplePlaylistFetch, sampleChartFetch])
    (by simp [samplePlaylistFetch, sampleChartFetch])
    (by simp [samplePlaylistFetch, sampleChartFetch])
  exact ⟨rfl, h.1, h.2.2.1⟩

theorem subAux_skip (k : Nat) (l : List Char) : subAux k l = subAux 0 (l.drop k) := by
  induction l generalizing k with
  | nil => cases k <;> rfl
  | cons c rest ih =>
    cases k with
    | zero => rfl
    | succ k => simpa [subAux] using ih k

theorem formatWH_cons (size : Nat) (c : Char) (t : List Char)
    (h1 : c ≠ '\x7b') (h2 : c ≠ '\x7d') :
    formatWH size (c :: t) = (formatWH size t).map (fun o => c :: o) := by
  rw [formatWH.eq_def]
  split <;> simp_all

theorem formatWH_append_of_braceFree (size : Nat) (l t : List Char)
    (h : braceFree l = true) :
    formatWH size (l ++ t) = (formatWH size t).map (fun o => l ++ o) := by
  induction l with
  | nil =>
    rw [List.nil_append]
    cases formatWH size t <;> simp
  | cons c cs ih =>
    have h' : (c :: cs).all (fun x => decide (x ≠ '\x7b' ∧ x ≠ '\x7d')) = true := h
    have hc := (List.all_eq_true.mp h') c (by simp)
    have hc2 : c ≠ '\x7b' ∧ c ≠ '\x7d' := by simpa using hc
    have hcs : braceFree cs = true := by
      show cs.all (fun x => decide (x ≠ '\x7b' ∧ x ≠ '\x7d')) = true
      rw [List.all_eq_true]
      intro x hx
      exact (List.all_eq_true.mp h') x (by simp [hx])
    rw [List.cons_append, formatWH_cons size c (cs ++ t) hc2.1 hc2.2, ih hcs]
    cases formatWH size t <;> simp

theorem formatWH_of_braceFree (size : Nat) (l : List Char) (h : braceFree l = true) :
    formatWH size l = some l := by
  have h2 := formatWH_append_of_braceFree size l [] h
  rw [show formatWH size ([] : List Char) = some [] from rfl] at h2
  simpa using h2

theorem formatWH_template (size : Nat) (t : List Char) :
    formatWH size (templateChars ++ t)
      = (formatWH size t).map (fun o => natChars size ++ 'x' :: (natChars size ++ o)) := by
  have h : formatWH size (templateChars ++ t)
      = (((formatWH size t).map (fun o => natChars size ++ o)).map
          (fun o => 'x' :: o)).map (fun o => natChars size ++ o) := rfl
  rw [h]
  cases formatWH size t <;> simp

theorem allDigits_take (l : List Char) (k : Nat) (h : allDigits l = true) :
    allDigits (l.take k) = true := by
  have h2 : ∀ x ∈ l, x.isDigit = true := List.all_eq_true.mp h
  show (l.take k).all Char.isDigit = true
  rw [List.all_eq_true]
  intro x hx
  exact h2 x (List.mem_of_mem_take hx)

theorem braceFree_drop (l : List Char) (k : Nat) (h : braceFree l = true) :
    braceFree (l.drop k) = true := by
  have h2 : ∀ x ∈ l, (decide (x ≠ '\x7b' ∧ x ≠ '\x7d')) = true := List.all_eq_true.mp h
  show (l.drop k).all (fun x => decide (x ≠ '\x7b' ∧ x ≠ '\x7d')) = true
  rw [List.all_eq_true]
  intro x hx
  exact h2 x (List.drop_subset _ _ hx)

theorem trySecondDigits_isSome (a : Nat) (d2 r : List Char)
    (h23 : 3 ≤ d2.length) (hd2 : allDigits d2 = true) :
    (trySecondDigits a (d2 ++ r)).isSome = true := by
  by_cases h4 : (((d2 ++ r).take 4).length = 4 ∧ allDigits ((d2 ++ r).take 4) = true)
  · simp [trySecondDigits, h4]
  · have hl : ((d2 ++ r).take 3).length = 3 := by
      rw [List.length_take, List.length_append]
      omega
    have ha : allDigits ((d2 ++ r).take 3) = true := by
      rw [List.take_append_eq_append_take]
      have h0 : 3 - d2.length = 0 := by omega
      rw [h0, List.take_zero, List.append_nil]
      exact allDigits_take d2 3 hd2
    simp only [trySecondDigits]
    rw [if_neg h4, if_pos ⟨hl, ha⟩]
    rfl

theorem tryWxH_token (d1 d2 r : List Char) (hd1 : allDigits d1 = true) :
    tryWxH d1.length (d1 ++ 'x' :: (d2 ++ r)) = trySecondDigits d1.length (d2 ++ r) := by
  unfold tryWxH
  rw [List.take_left, List.drop_left]
  simp [hd1]

theorem matchLenAt_token (d1 d2 r : List Char)
    (h13 : 3 ≤ d1.length) (h14 : d1.length ≤ 4) (hd1 : allDigits d1 = true)
    (h23 : 3 ≤ d2.length) (hd2 : allDigits d2 = true) :
    (matchLenAt (d1 ++ 'x' :: (d2 ++ r))).isSome = true := by
  have hinner := trySecondDigits_isSome d1.length d2 r h23 hd2
  by_cases h4 : d1.length = 4
  · have ht := tryWxH_token d1 d2 r hd1
    rw [h4] at ht hinner
    unfold matchLenAt
    rw [ht]
    cases h : trySecondDigits 4 (d2 ++ r) with
    | some n => simp
    | none => rw [h] at hinner; simp at hinner
  · have h3 : d1.length = 3 := by omega
    have hfail : tryWxH 4 (d1 ++ 'x' :: (d2 ++ r)) = none := by
      have htake : (d1 ++ 'x' :: (d2 ++ r)).take 4 = d1 ++ ['x'] := by
        rw [List.take_append_eq_append_take, List.take_of_length_le (by omega), h3]
        rfl
      have hdig : allDigits (d1 ++ ['x']) = false := by
        show (d1 ++ ['x']).all Char.isDigit = false
        simp [List.all_append]
      unfold tryWxH
      rw [htake, if_neg]
      rintro ⟨-, hcontra⟩
      rw [hdig] at hcontra
      exact Bool.false_ne_true hcontra
    have ht := tryWxH_token d1 d2 r hd1
    rw [h3] at ht hinner
    unfold matchLenAt
    rw [hfail, ht]
    exact hinner

theorem hasWxH_of_matchLenAt (cs : List Char) (h : (matchLenAt cs).isSome = true) :
    hasWxH cs = true := by
  cases cs with
  | nil => exact absurd h (by decide)
  | cons c t => simp [hasWxH, h]

theorem hasWxH_of_token (cs : List Char) (h : ContainsResToken cs) : hasWxH cs = true := by
  obtain ⟨l, d1, d2, r, hcs, h13, h14, hd1, h23, h24, hd2⟩ := h
  subst hcs
  induction l with
  | nil =>
    rw [List.nil_append]
    exact hasWxH_of_matchLenAt _ (matchLenAt_token d1 d2 r h13 h14 hd1 h23 hd2)
  | cons c ltail ih =>
    rw [List.cons_append]
    simp [hasWxH, ih]

theorem formatWH_subAux_ok (size : Nat) :
    ∀ N cs, List.length cs ≤ N → braceFree cs = true →
    (∃ o, formatWH size (subAux 0 cs) = some o)
    ∧ (hasWxH cs = true → ∃ l r, formatWH size (subAux 0 cs)
        = some (l ++ (natChars size ++ 'x' :: (natChars size ++ r)))) := by
  intro N
  induction N with
  | zero =>
    intro cs hlen hbf
    have h0 : cs = [] := by
      cases cs with
      | nil => rfl
      | cons c t => simp at hlen
    subst h0
    refine ⟨⟨[], rfl⟩, ?_⟩
    intro hw
    simp [hasWxH] at hw
  | succ N ihN =>
    intro cs hlen hbf
    cases cs with
    | nil =>
      refine ⟨⟨[], rfl⟩, ?_⟩
      intro hw
      simp [hasWxH] at hw
    | cons c rest =>
      have hlr : rest.length ≤ N := by
        simp only [List.length_cons] at hlen
        omega
      have hbf' : (c :: rest).all (fun x => decide (x ≠ '\x7b' ∧ x ≠ '\x7d')) = true := hbf
      have hc2 : c ≠ '\x7b' ∧ c ≠ '\x7d' := by
        simpa using (List.all_eq_true.mp hbf') c (by simp)
      have hbrest : braceFree rest = true := by
        show rest.all (fun x => decide (x ≠ '\x7b' ∧ x ≠ '\x7d')) = true
        rw [List.all_eq_true]
        intro x hx
        exact (List.all_eq_true.mp hbf') x (by simp [hx])
      cases hm : matchLenAt (c :: rest) with
      | some n =>
        have hsub : subAux 0 (c :: rest) = templateChars ++ subAux 0 (rest.drop (n - 1)) := by
          simp only [subAux, hm]
          rw [subAux_skip]
        have hdl : (rest.drop (n - 1)).length ≤ N := by
          rw [List.length_drop]
          omega
        have hbd : braceFree (rest.drop (n - 1)) = true := braceFree_drop rest (n - 1) hbrest
        obtain ⟨o, ho⟩ := (ihN (rest.drop (n - 1)) hdl hbd).1
        have hfmt : formatWH size (subAux 0 (c :: rest))
            = some (natChars size ++ 'x' :: (natChars size ++ o)) := by
          rw [hsub, formatWH_template, ho]
          rfl
        refine ⟨⟨_, hfmt⟩, ?_⟩
        intro hw
        exact ⟨[], o, by simpa using hfmt⟩
      | none =>
        have hsub : subAux 0 (c :: rest) = c :: subAux 0 rest := by
          simp only [subAux, hm]
        have hrest := ihN rest hlr hbrest
        obtain ⟨o, ho⟩ := hrest.1
        constructor
        · refine ⟨c :: o, ?_⟩
          rw [hsub, formatWH_cons size c _ hc2.1 hc2.2, ho]
          rfl
        · intro hw
          have hw2 : hasWxH rest = true := by
            simp [hasWxH, hm] at hw
            exact hw
          obtain ⟨l, r, h2⟩ := hrest.2 hw2
          refine ⟨c :: l, r, ?_⟩
          rw [hsub, formatWH_cons size c _ hc2.1 hc2.2, h2]
          simp

/-- C4: for every brace-free cover URL containing a fixed `WxH` resolution
token (3-4 digits each side) and every requested size `s`, the generated
URL renders both dimensions as `min s 1400` (so size 800 yields `800x800`
in the URL and any size above 1400 yields exactly 1400); a URL without such
a token has its `{w}` and `{h}` placeholders filled directly with the
capped size. -/
theorem C4_artwork_url (url l m r : List Char) (s : Nat) :
    (braceFree url = true → ContainsResToken url →
      ∃ lo ro, generate_artwork_url url s
        = some (lo ++ (natChars (min s 1400) ++ 'x' :: (natChars (min s 1400) ++ ro))))
    ∧ (braceFree l = true → braceFree m = true → braceFree r = true →
      hasWxH (l ++ (wTokenChars ++ (m ++ (hTokenChars ++ r)))) = false →
      generate_artwork_url (l ++ (wTokenChars ++ (m ++ (hTokenChars ++ r)))) s
        = some (l ++ (natChars (min s 1400) ++ (m ++ (natChars (min s 1400) ++ r))))) := by
  have hcap : (if s > 1400 then 1400 else s) = min s 1400 := by
    by_cases h : s > 1400
    · rw [if_pos h]
      omega
    · rw [if_neg h]
      omega
  constructor
  · intro hbf htok
    have hw := hasWxH_of_token url htok
    obtain ⟨lo, ro, h2⟩ :=
      (formatWH_subAux_ok (min s 1400) url.length url le_rfl hbf).2 hw
    refine ⟨lo, ro, ?_⟩
    simp only [generate_artwork_url, hcap, hw, if_true]
    exact h2
  · intro hl hm2 hr hno
    have hwtok : ∀ t, formatWH (min s 1400) (wTokenChars ++ t)
        = (formatWH (min s 1400) t).map (fun o => natChars (min s 1400) ++ o) :=
      fun t => rfl
    have hhtok : ∀ t, formatWH (min s 1400) (hTokenChars ++ t)
        = (formatWH (min s 1400) t).map (fun o => natChars (min s 1400) ++ o) :=
      fun t => rfl
    simp only [generate_artwork_url, hcap, hno]
    rw [if_neg (by simp)]
    rw [formatWH_append_of_braceFree _ l _ hl, hwtok,
      formatWH_append_of_braceFree _ m _ hm2, hhtok, formatWH_of_braceFree _ r hr]
    rfl

theorem C4_artwork_url_witness :
    braceFree sampleCoverUrl = true
    ∧ (∃ lo ro, generate_artwork_url sampleCoverUrl 800
        = some (lo ++ (natChars 800 ++ 'x' :: (natChars 800 ++ ro))))
    ∧ (∃ lo ro, generate_artwork_url sampleCoverUrl 2000
        = some (lo ++ (natChars 1400 ++ 'x' :: (natChars 1400 ++ ro))))
    ∧ generate_artwork_url ("https://img.example/res/".toList
        ++ (wTokenChars ++ (['x'] ++ (hTokenChars ++ "/cover.jpg".toList)))) 800
      = some ("https://img.example/res/".toList
          ++ (natChars 800 ++ (['x'] ++ (natChars 800 ++ "/cover.jpg".toList)))) := by
  have htok : ContainsResToken sampleCoverUrl :=
    ⟨"https://img.example/ab/".toList, ['5', '0', '0'], ['5', '0', '0'],
      "/cover.jpg".toList, by decide, by decide, by decide, by decide,
      by decide, by decide, by decide⟩
  refine ⟨by decide, ?_, ?_, ?_⟩
  · obtain ⟨lo, ro, h⟩ := (C4_artwork_url sampleCoverUrl [] [] [] 800).1 (by decide) htok
    rw [show min 800 1400 = 800 from by decide] at h
    exact ⟨lo, ro, h⟩
  · obtain ⟨lo, ro, h⟩ := (C4_artwork_url sampleCoverUrl [] [] [] 2000).1 (by decide) htok
    rw [show min 2000 1400 = 1400 from by decide] at h
    exact ⟨lo, ro, h⟩
  · have h := (C4_artwork_url [] "https://img.example/res/".toList ['x']
        "/cover.jpg".toList 800).2 (by decide) (by decide) (by decide) (by decide)
    rw [show min 800 1400 = 800 from by decide] at h
    exact h

end Beatport
